import Mathlib

/-!
Verification of the calendar-grid engine and density-color mapper of
`fbanlz` (files `calendar.py` and `fbanlz.py`).

The Python code is shallowly embedded: machine-unbounded Python integers
become `Int` (or `Nat` where the source guarantees non-negativity),
`datetime.date` values become `PyDate` triples, raised exceptions become
`Except CalErr` results, and generators become the lists of the values
they yield.  Python's floor division and modulo on a positive divisor
agree with Lean's `Int` `/` and `%` (Euclidean convention), which is the
only case the source exercises.
-/

set_option maxHeartbeats 1000000
set_option maxRecDepth 100000

/-- Embeds `calendar.isleap`.  `year % 4 == 0 and (year % 100 != 0 or
year % 400 == 0)`.  Python years are unbounded integers. -/
def isleap (year : Int) : Bool :=
  year % 4 == 0 && (year % 100 != 0 || year % 400 == 0)

/-- Embeds `calendar.leapdays`: number of leap years in `[year1, year2)`
by the closed form `(y2//4 - y1//4) - (y2//100 - y1//100) + (y2//400 -
y1//400)` after decrementing both bounds. -/
def leapdays (year1 year2 : Int) : Int :=
  let y1 := year1 - 1
  let y2 := year2 - 1
  (y2 / 4 - y1 / 4) - (y2 / 100 - y1 / 100) + (y2 / 400 - y1 / 400)

/-- Embeds the module constant `mdays`. -/
def mdays : List Nat := [0, 31, 28, 31, 30, 31, 30, 31, 31, 30, 31, 30, 31]

/-- Days in a month: `mdays[month] + (month == FEBRUARY and isleap(year))`,
the expression computed inside `calendar.monthrange`. -/
def daysInMonth (year month : Nat) : Nat :=
  mdays.getD month 0 + (if month = 2 ∧ isleap (year : Int) then 1 else 0)

/-- Days from March-free months before `month` in `year` (0 for January).
Auxiliary for the proleptic-Gregorian ordinal used by `datetime.date`. -/
def daysBeforeMonth (year : Nat) : Nat → Nat
  | 0 => 0
  | 1 => 0
  | m + 1 => daysBeforeMonth year m + daysInMonth year m

/-- Days before January 1 of `year` in the proleptic Gregorian calendar
(the `_days_before_year` of CPython's `datetime`). -/
def daysBeforeYear (year : Nat) : Nat :=
  365 * (year - 1) + ((year - 1) / 4 + (year - 1) / 400 - (year - 1) / 100)

/-- A `datetime.date` value: a (year, month, day) triple. -/
structure PyDate where
  year : Nat
  month : Nat
  day : Nat
deriving DecidableEq, Repr

/-- `datetime.date.toordinal`: day number with 0001-01-01 ↦ 1. -/
def toOrd (d : PyDate) : Nat :=
  daysBeforeYear d.year + daysBeforeMonth d.year d.month + d.day

/-- `datetime.date.weekday`: 0 = Monday … 6 = Sunday.  0001-01-01 is a
Monday, so the weekday is `(ordinal + 6) % 7`. -/
def weekdayD (d : PyDate) : Nat := (toOrd d + 6) % 7

/-- Embeds `calendar.weekday(year, month, day)` =
`datetime.date(year, month, day).weekday()`. -/
def weekday (year month day : Nat) : Nat := weekdayD ⟨year, month, day⟩

/-- The error outcomes the embedded code can raise. -/
inductive CalErr where
  /-- `calendar.IllegalMonthError(month)`. -/
  | illegalMonth (month : Int)
  /-- a `ValueError` raised by `datetime.date` on an out-of-range
  year/month/day argument. -/
  | dateValueError
  /-- an `OverflowError` from `datetime.date` arithmetic leaving the
  representable range. -/
  | overflowError
  /-- the `ValueError` raised by `range(a, b, 0)`. -/
  | zeroStepError
deriving DecidableEq, Repr

/-- Embeds `calendar.monthrange(year, month)`: checks `1 <= month <= 12`
(raising `IllegalMonthError` otherwise), then asks `datetime` for the
weekday of day 1 (which validates the year) and adds the month length. -/
def monthrangeE (year month : Int) : Except CalErr (Nat × Nat) :=
  if 1 ≤ month ∧ month ≤ 12 then
    if 1 ≤ year ∧ year ≤ 9999 then
      .ok (weekday year.toNat month.toNat 1, daysInMonth year.toNat month.toNat)
    else .error .dateValueError
  else .error (.illegalMonth month)

/-- `date + timedelta(days=1)` on a valid date (the field-level effect of
`datetime`'s ordinal increment). -/
def succDate (d : PyDate) : PyDate :=
  if d.day < daysInMonth d.year d.month then ⟨d.year, d.month, d.day + 1⟩
  else if d.month < 12 then ⟨d.year, d.month + 1, 1⟩
  else ⟨d.year + 1, 1, 1⟩

/-- `date - timedelta(days=1)` on a valid date. -/
def predDate (d : PyDate) : PyDate :=
  if 1 < d.day then ⟨d.year, d.month, d.day - 1⟩
  else if 1 < d.month then ⟨d.year, d.month - 1, daysInMonth d.year (d.month - 1)⟩
  else ⟨d.year - 1, 12, 31⟩

/-- `date - timedelta(days=n)`. -/
def subDays (n : Nat) (d : PyDate) : PyDate := predDate^[n] d

/-- The `while True` loop of `Calendar.itermonthdates`, fuelled.  Each
iteration yields `d`; then `date += oneday` raises `OverflowError` when
`d` is 9999-12-31 (ending the loop), and otherwise the loop ends as soon
as the incremented date leaves `month` on a day whose weekday is the
configured first weekday.  43 iterations always suffice, so the fuel of
50 used below never truncates. -/
def iterAux (fw month : Nat) : Nat → PyDate → List PyDate
  | 0, _ => []
  | fuel + 1, d =>
    d :: (if d = ⟨9999, 12, 31⟩ then []
      else
        let nxt := succDate d
        if nxt.month ≠ month ∧ weekdayD nxt = fw then []
        else iterAux fw month fuel nxt)

/-- Body of `Calendar.itermonthdates` after argument validation:
`days = (date.weekday() - self.firstweekday) % 7`, `date -= days` (which
raises `OverflowError` when it would go before 0001-01-01, i.e. when the
ordinal of day 1 is at most `days`), then the yield loop.  `fw` is the
already-normalised first weekday (`self.firstweekday` reads
`_firstweekday % 7`). -/
def itermonthdatesCore (fw year month : Nat) : Except CalErr (List PyDate) :=
  let first : PyDate := ⟨year, month, 1⟩
  let days : Nat := (((weekdayD first : Int) - (fw : Int)) % 7).toNat
  if toOrd first ≤ days then .error .overflowError
  else .ok (iterAux fw month 50 (subDays days first))

/-- Embeds `Calendar.itermonthdates(year, month)` for a calendar whose
raw `_firstweekday` is `fw`; `datetime.date(year, month, 1)` validates
the year and month. -/
def itermonthdatesE (fw year month : Int) : Except CalErr (List PyDate) :=
  if 1 ≤ year ∧ year ≤ 9999 ∧ 1 ≤ month ∧ month ≤ 12 then
    itermonthdatesCore (fw % 7).toNat year.toNat month.toNat
  else .error .dateValueError

/-- Embeds `Calendar.iterweekdays`: `range(fw, fw + 7)` each mod 7, with
`fw = self.firstweekday` already reduced mod 7 by the property getter. -/
def iterweekdays (fw : Int) : List Nat :=
  (List.range 7).map fun i => ((fw % 7).toNat + i) % 7

/-- Embeds `Calendar.itermonthdays`: zeros for the days before the 1st,
the day numbers `1 .. ndays`, zeros to complete the last week. -/
def itermonthdaysE (fw year month : Int) : Except CalErr (List Nat) :=
  (monthrangeE year month).map fun p =>
    let daysBefore := (((p.1 : Int) - fw % 7) % 7).toNat
    let daysAfter := ((fw % 7 - (p.1 : Int) - (p.2 : Int)) % 7).toNat
    List.replicate daysBefore 0 ++ (List.range p.2).map (· + 1)
      ++ List.replicate daysAfter 0

/-- Embeds `Calendar.itermonthdays2`:
`enumerate(self.itermonthdays(year, month), self.firstweekday)` unpacked
as `(weekday, day)` and yielded as `(day, weekday % 7)`. -/
def itermonthdays2E (fw year month : Int) : Except CalErr (List (Nat × Nat)) :=
  (itermonthdaysE fw year month).map fun l =>
    (l.enumFrom (fw % 7).toNat).map fun p => (p.2, p.1 % 7)

/-- Python's `[l[i:i+k] for i in range(0, len(l), k)]` for a positive
step `k` (both call sites use `k = 7`). -/
def pyslices {α : Type} (l : List α) (k : Nat) : List (List α) :=
  (List.range ((l.length + k - 1) / k)).map fun i => (l.drop (i * k)).take k

/-- Embeds `Calendar.monthdatescalendar`. -/
def monthdatescalendarE (fw year month : Int) : Except CalErr (List (List PyDate)) :=
  (itermonthdatesE fw year month).map fun dates => pyslices dates 7

/-- Embeds `Calendar.monthdays2calendar`. -/
def monthdays2calendarE (fw year month : Int) :
    Except CalErr (List (List (Nat × Nat))) :=
  (itermonthdays2E fw year month).map fun days => pyslices days 7

/-- Embeds `Calendar.monthdayscalendar`. -/
def monthdayscalendarE (fw year month : Int) : Except CalErr (List (List Nat)) :=
  (itermonthdaysE fw year month).map fun days => pyslices days 7

/-- Python `range(start, stop, step)` as a list, raising `ValueError`
on a zero step. -/
def pyRangeStep (start stop step : Int) : Except CalErr (List Int) :=
  if step = 0 then .error .zeroStepError
  else if 0 < step then
    .ok ((List.range ((stop - start + step - 1) / step).toNat).map
      fun i => start + step * i)
  else
    .ok ((List.range ((start - stop - step - 1) / (-step)).toNat).map
      fun i => start + step * i)

/-- Embeds `Calendar.yeardatescalendar`: the twelve month grids, then
`[months[i:i+width] for i in range(0, len(months), width)]`. -/
def yeardatescalendarE (fw year width : Int) :
    Except CalErr (List (List (List (List PyDate)))) := do
  let months ← (List.range 12).mapM fun (i : Nat) => monthdatescalendarE fw year (1 + (i : Int))
  let idxs ← pyRangeStep 0 12 width
  pure (idxs.map fun i => (months.drop i.toNat).take width.toNat)

/-- Embeds `Calendar.yeardays2calendar`. -/
def yeardays2calendarE (fw year width : Int) :
    Except CalErr (List (List (List (List (Nat × Nat))))) := do
  let months ← (List.range 12).mapM fun (i : Nat) => monthdays2calendarE fw year (1 + (i : Int))
  let idxs ← pyRangeStep 0 12 width
  pure (idxs.map fun i => (months.drop i.toNat).take width.toNat)

/-- Embeds `Calendar.yeardayscalendar`. -/
def yeardayscalendarE (fw year width : Int) :
    Except CalErr (List (List (List (List Nat)))) := do
  let months ← (List.range 12).mapM fun (i : Nat) => monthdayscalendarE fw year (1 + (i : Int))
  let idxs ← pyRangeStep 0 12 width
  pure (idxs.map fun i => (months.drop i.toNat).take width.toNat)

/-- Python `f"{n:02d}"` for a non-negative value. -/
def format02 (n : Nat) : String := if n < 10 then "0" ++ toString n else toString n

/-- `HTMLCalendar.cssclasses`. -/
def cssclasses : List String := ["mon", "tue", "wed", "thu", "fri", "sat", "sun"]

/-- The module table `day_abbr`. -/
def day_abbr : List String := ["Mon", "Tue", "Wed", "Thu", "Fri", "Sat", "Sun"]

/-- The module table `month_name`. -/
def month_name : List String :=
  ["", "January", "February", "March", "April", "May", "June", "July",
   "August", "September", "October", "November", "December"]

/-- Embeds `HTMLCalendar.formatday(day, weekday, theyear, themonth)`. -/
def formatday (day wd theyear themonth : Nat) : String :=
  if day = 0 then "<td class=\"day\">&nbsp;</td>"
  else "<td class=\"day " ++ cssclasses.getD wd "" ++ "\" id=\"_"
    ++ toString theyear ++ format02 themonth ++ format02 day ++ "\">"
    ++ toString day ++ "</td>"

/-- Embeds `HTMLCalendar.formatweek`. -/
def formatweek (theweek : List (Nat × Nat)) (theyear themonth : Nat) : String :=
  "<tr>" ++ String.join (theweek.map fun p => formatday p.1 p.2 theyear themonth)
    ++ "</tr>"

/-- Embeds `HTMLCalendar.formatweekday`. -/
def formatweekday (day : Nat) : String :=
  "<th class=\"" ++ cssclasses.getD day "" ++ "\">" ++ day_abbr.getD day ""
    ++ "</th>"

/-- Embeds `HTMLCalendar.formatweekheader`. -/
def formatweekheader (fw : Int) : String :=
  "<tr>" ++ String.join ((iterweekdays fw).map formatweekday) ++ "</tr>"

/-- Embeds `HTMLCalendar.formatmonthname`. -/
def formatmonthname (theyear themonth : Nat) (withyear : Bool) : String :=
  let month := if withyear then month_name.getD themonth "" ++ " " ++ toString theyear
    else month_name.getD themonth ""
  "<tr><th colspan=\"7\" class=\"month\">" ++ month ++ "</th></tr>"

/-- Embeds `HTMLCalendar.formatmonth`. -/
def formatmonthE (fw theyear themonth : Int) (withyear : Bool) :
    Except CalErr String :=
  (monthdays2calendarE fw theyear themonth).map fun weeks =>
    "<table class=\"month\" id=\"" ++ toString theyear ++ format02 themonth.toNat
      ++ "\">\n"
    ++ formatmonthname theyear.toNat themonth.toNat withyear ++ "\n"
    ++ formatweekheader fw ++ "\n"
    ++ String.join (weeks.map fun w => formatweek w theyear.toNat themonth.toNat ++ "\n")
    ++ "</table>\n"

/-- Embeds `HTMLCalendar.formatyear`: clamps `width` with `max(width, 1)`
and lays the twelve months out in rows of `width`. -/
def formatyearE (fw theyear width0 : Int) : Except CalErr String := do
  let width := max width0 1
  let idxs ← pyRangeStep 1 13 width
  let rows ← idxs.mapM fun i => do
    let ms ← pyRangeStep i (min (i + width) 13) 1
    let cells ← ms.mapM fun month =>
      (formatmonthE fw theyear month false).map fun s => "<td>" ++ s ++ "</td>"
    pure ("<tr>" ++ String.join cells ++ "</tr>")
  pure ("<table class=\"year\" id=\"" ++ toString theyear ++ "\">\n"
    ++ "<tr><th colspan=\"" ++ toString width ++ "\" class=\"year\">"
    ++ toString theyear ++ "</th></tr>" ++ String.join rows ++ "</table>")

/-- `fbanlz.StyleData`. -/
structure StyleData where
  id : String
  bgcolor : String
deriving DecidableEq, Repr

/-- `StyleData.__str__`. -/
def styleDataStr (s : StyleData) : String :=
  "#" ++ s.id ++ " \x7b background-color: #" ++ s.bgcolor ++ "; \x7d"

/-- Python `max` over the count values (the source calls it on a
non-empty dict, where `foldl max 0` agrees with `max`). -/
def pyMax (l : List Nat) : Nat := l.foldl max 0

/-- Python `hex(value)[2:]`.  For a non-negative value this is the
lowercase hex digits without the `0x` prefix (`Nat.toDigits 16`); for a
negative value `hex` gives `-0x…`, so the slice starts with `x`. -/
def hexSlice2 (value : Int) : String :=
  if value < 0 then "x" ++ String.mk (Nat.toDigits 16 (-value).toNat)
  else String.mk (Nat.toDigits 16 value.toNat)

/-- The identifier built for a date inside `fbanlz.getcellstyles`:
`f"_{date[0]}{date[1]:02d}{date[2]:02d}"`. -/
def styleIdOf (date : Nat × Nat × Nat) : String :=
  "_" ++ toString date.1 ++ format02 date.2.1 ++ format02 date.2.2

/-- The grayscale value `255 - step * count` computed inside
`fbanlz.getcellstyles`, with `step = DARKEST // max(counts)` and
`DARKEST = 143`. -/
def cellValue (datecounts : List ((Nat × Nat × Nat) × Nat)) (count : Nat) : Int :=
  255 - ((143 / pyMax (datecounts.map fun p => p.2) : Nat) : Int) * (count : Int)

/-- The `styles` list built by `fbanlz.getcellstyles` over the ordered
(date, count) pairs of the counting dict. -/
def getcellstylesList (datecounts : List ((Nat × Nat × Nat) × Nat)) :
    List StyleData :=
  datecounts.map fun p =>
    let value := cellValue datecounts p.2
    ⟨styleIdOf p.1, hexSlice2 value ++ hexSlice2 value ++ hexSlice2 value⟩

/-- Embeds `fbanlz.getcellstyles`: the stylesheet text, one rule per
line. -/
def getcellstyles (datecounts : List ((Nat × Nat × Nat) × Nat)) : String :=
  String.intercalate "\n" ((getcellstylesList datecounts).map styleDataStr)

lemma weekdayD_lt (d : PyDate) : weekdayD d < 7 := Nat.mod_lt _ (by norm_num)

lemma isleap_iff (y : Int) :
    isleap y = true ↔ (y % 4 = 0 ∧ (y % 100 ≠ 0 ∨ y % 400 = 0)) := by
  simp [isleap]

lemma daysInMonth_12 (y : Nat) : daysInMonth y 12 = 31 := by
  simp [daysInMonth, mdays]

lemma daysInMonth_bounds (y m : Nat) (h1 : 1 ≤ m) (h2 : m ≤ 12) :
    28 ≤ daysInMonth y m ∧ daysInMonth y m ≤ 31 := by
  interval_cases m <;> simp [daysInMonth, mdays] <;> split <;> omega

lemma daysBeforeMonth_succ (y m : Nat) (h : 1 ≤ m) :
    daysBeforeMonth y (m + 1) = daysBeforeMonth y m + daysInMonth y m := by
  match m, h with
  | Nat.succ k, _ => rfl

lemma daysBeforeMonth_13 (y : Nat) :
    daysBeforeMonth y 13 = 365 + (if isleap (y : Int) then 1 else 0) := by
  rcases h : isleap (y : Int) <;>
    simp [show (13:Nat) = 12+1 from rfl, show (12:Nat) = 11+1 from rfl,
      show (11:Nat) = 10+1 from rfl, show (10:Nat) = 9+1 from rfl,
      daysBeforeMonth, daysInMonth, mdays, h]

lemma daysBeforeYear_succ (y : Nat) (hy : 1 ≤ y) :
    daysBeforeYear (y + 1) =
      daysBeforeYear y + 365 + (if isleap (y : Int) then 1 else 0) := by
  have hiff := isleap_iff (y : Int)
  rcases h : isleap (y : Int) <;> rw [h] at hiff <;>
    simp only [daysBeforeYear, h] <;> norm_num <;>
    [skip; skip] <;> simp at hiff <;> omega

lemma toOrd_succ (d : PyDate) (hy : 1 ≤ d.year) (hm1 : 1 ≤ d.month)
    (hm2 : d.month ≤ 12) (hd2 : d.day ≤ daysInMonth d.year d.month) :
    toOrd (succDate d) = toOrd d + 1 := by
  obtain ⟨y, m, dd⟩ := d
  try dsimp only at hy hm1 hm2 hd2
  unfold succDate
  try dsimp only
  split
  · simp only [toOrd]; try dsimp only
    omega
  · split
    · next hlt hmlt =>
      have hdd : dd = daysInMonth y m := by omega
      simp only [toOrd, daysBeforeMonth_succ y m hm1]
      try dsimp only
      omega
    · next hlt hmlt =>
      have hm : m = 12 := by omega
      subst hm
      have h31 := daysInMonth_12 y
      have hdd : dd = 31 := by omega
      have h13 := daysBeforeMonth_13 y
      have h13s : daysBeforeMonth y 13 = daysBeforeMonth y 12 + daysInMonth y 12 :=
        daysBeforeMonth_succ y 12 (by norm_num)
      have hys := daysBeforeYear_succ y hy
      have h1 : daysBeforeMonth (y + 1) 1 = 0 := rfl
      simp only [toOrd]
      try dsimp only
      rcases hl : isleap (y : Int) <;> simp [hl] at hys h13 <;> omega

lemma weekdayD_succ (d : PyDate) (hy : 1 ≤ d.year) (hm1 : 1 ≤ d.month)
    (hm2 : d.month ≤ 12) (hd2 : d.day ≤ daysInMonth d.year d.month) :
    weekdayD (succDate d) = (weekdayD d + 1) % 7 := by
  simp only [weekdayD, toOrd_succ d hy hm1 hm2 hd2]
  omega

/-- A real calendar date (what `datetime.date` can hold, minus the upper
year bound). -/
def ValidDate (d : PyDate) : Prop :=
  1 ≤ d.year ∧ 1 ≤ d.month ∧ d.month ≤ 12 ∧ 1 ≤ d.day ∧
    d.day ≤ daysInMonth d.year d.month

/-- Year of the month preceding month `m` of year `y`. -/
def prevY (y m : Nat) : Nat := if m = 1 then y - 1 else y

/-- The month preceding month `m`. -/
def prevM (m : Nat) : Nat := if m = 1 then 12 else m - 1

/-- Year of the month following month `m` of year `y`. -/
def nextY (y m : Nat) : Nat := if m < 12 then y else y + 1

/-- The month following month `m`. -/
def nextM (m : Nat) : Nat := if m < 12 then m + 1 else 1

/-- The number of leading out-of-month days produced by
`itermonthdates`: `(weekday(y, m, 1) - fw) % 7` as computed by the
source. -/
def backOf (fw y m : Nat) : Nat :=
  (((weekdayD ⟨y, m, 1⟩ : Int) - (fw : Int)) % 7).toNat

/-- The number of trailing out-of-month days produced by
`itermonthdates` (Nat rendering of `(fw - weekday(y,m,1) - ndays) % 7`). -/
def afterOf (fw y m : Nat) : Nat :=
  (fw + 42 - weekdayD ⟨y, m, 1⟩ - daysInMonth y m) % 7

/-- Total number of dates `itermonthdates` yields away from the
representable-range boundaries. -/
def totalOf (fw y m : Nat) : Nat := backOf fw y m + daysInMonth y m + afterOf fw y m

/-- The `i`-th date (0-based) of the `itermonthdates` run for
(year `y`, month `m`) whose first `back` dates precede the 1st. -/
def dateAt (y m back i : Nat) : PyDate :=
  if i < back then
    ⟨prevY y m, prevM m, daysInMonth (prevY y m) (prevM m) - (back - 1 - i)⟩
  else if i < back + daysInMonth y m then ⟨y, m, i - back + 1⟩
  else ⟨nextY y m, nextM m, i - back - daysInMonth y m + 1⟩

lemma backOf_lt (fw y m : Nat) (hfw : fw < 7) : backOf fw y m < 7 := by
  have h := weekdayD_lt ⟨y, m, 1⟩
  simp only [backOf]
  omega

lemma afterOf_lt (fw y m : Nat) : afterOf fw y m < 7 := by
  simp only [afterOf]; omega

lemma prevM_bounds (m : Nat) (hm1 : 1 ≤ m) (hm2 : m ≤ 12) :
    1 ≤ prevM m ∧ prevM m ≤ 12 ∧ prevM m ≠ m := by
  simp only [prevM]; split <;> omega

lemma nextM_bounds (m : Nat) (hm1 : 1 ≤ m) (hm2 : m ≤ 12) :
    1 ≤ nextM m ∧ nextM m ≤ 12 ∧ nextM m ≠ m := by
  simp only [nextM]; split <;> omega

@[simp] lemma year_mk (a b c : Nat) : (PyDate.mk a b c).year = a := rfl

@[simp] lemma month_mk (a b c : Nat) : (PyDate.mk a b c).month = b := rfl

@[simp] lemma day_mk (a b c : Nat) : (PyDate.mk a b c).day = c := rfl

lemma dateAt_valid (y m : Nat) (hy1 : 1 ≤ y)
    (hm1 : 1 ≤ m) (hm2 : m ≤ 12) (back : Nat) (hback : back < 7)
    (hpy : back = 0 ∨ 1 ≤ prevY y m) (i : Nat)
    (hi : i ≤ back + daysInMonth y m + 6) :
    ValidDate (dateAt y m back i) := by
  have hpm := prevM_bounds m hm1 hm2
  have hnm := nextM_bounds m hm1 hm2
  have hdp := daysInMonth_bounds (prevY y m) (prevM m) hpm.1 hpm.2.1
  have hdn := daysInMonth_bounds (nextY y m) (nextM m) hnm.1 hnm.2.1
  have hdm := daysInMonth_bounds y m hm1 hm2
  have hny : 1 ≤ nextY y m := by simp only [nextY]; split <;> omega
  simp only [dateAt, ValidDate]
  split
  · simp only [year_mk, month_mk, day_mk]
    omega
  · split <;> simp only [year_mk, month_mk, day_mk] <;> omega

lemma dateAt_succ (y m : Nat) (hy1 : 1 ≤ y)
    (hm1 : 1 ≤ m) (hm2 : m ≤ 12) (back : Nat) (hback : back < 7)
    (hpy : back = 0 ∨ 1 ≤ prevY y m) (i : Nat)
    (hi : i + 1 ≤ back + daysInMonth y m + 6) :
    succDate (dateAt y m back i) = dateAt y m back (i + 1) := by
  have hpm := prevM_bounds m hm1 hm2
  have hnm := nextM_bounds m hm1 hm2
  have hdp := daysInMonth_bounds (prevY y m) (prevM m) hpm.1 hpm.2.1
  have hdn := daysInMonth_bounds (nextY y m) (nextM m) hnm.1 hnm.2.1
  have hdm := daysInMonth_bounds y m hm1 hm2
  rcases Nat.lt_or_ge (i + 1) back with hc | hc
  · -- both positions precede the 1st of the month
    simp only [dateAt, if_pos hc, if_pos (by omega : i < back), succDate]
    rw [if_pos (by (try simp only [year_mk, month_mk, day_mk]); omega)]
    try simp only [year_mk, month_mk, day_mk]
    rw [PyDate.mk.injEq]
    refine ⟨rfl, rfl, by omega⟩
  · rcases Nat.eq_or_lt_of_le hc with hc2 | hc2
    · -- stepping from the last day before the month onto its 1st
      have hib : i < back := by omega
      simp only [dateAt, if_pos hib, if_neg (by omega : ¬ i + 1 < back),
        if_pos (by omega : i + 1 < back + daysInMonth y m), succDate]
      rw [if_neg (by (try simp only [year_mk, month_mk, day_mk]); omega)]
      try simp only [year_mk, month_mk, day_mk]
      by_cases hm' : m = 1
      · have h12 : prevM m = 12 := by simp [prevM, hm']
        have hpy' : prevY y m = y - 1 := by simp [prevY, hm']
        rw [if_neg (by (try simp only [month_mk]); omega)]
        have hge : 1 ≤ prevY y m := by rcases hpy with h | h; omega; exact h
        rw [PyDate.mk.injEq]
        refine ⟨by omega, by omega, by omega⟩
      · have h12 : prevM m = m - 1 := by simp [prevM, hm']
        have hpy' : prevY y m = y := by simp [prevY, hm']
        rw [if_pos (by (try simp only [month_mk]); omega)]
        rw [PyDate.mk.injEq]
        refine ⟨by omega, by omega, by omega⟩
    · rcases Nat.lt_or_ge (i + 1) (back + daysInMonth y m) with hc3 | hc3
      · -- both positions inside the month
        simp only [dateAt, if_neg (by omega : ¬ i < back),
          if_neg (by omega : ¬ i + 1 < back),
          if_pos (by omega : i < back + daysInMonth y m), if_pos hc3, succDate]
        rw [if_pos (by (try simp only [year_mk, month_mk, day_mk]); omega)]
        try simp only [year_mk, month_mk, day_mk]
        rw [PyDate.mk.injEq]
        refine ⟨rfl, rfl, by omega⟩
      · rcases Nat.eq_or_lt_of_le hc3 with hc4 | hc4
        · -- stepping from the last day of the month into the next month
          simp only [dateAt, if_neg (by omega : ¬ i < back),
            if_neg (by omega : ¬ i + 1 < back),
            if_pos (by omega : i < back + daysInMonth y m),
            if_neg (by omega : ¬ i + 1 < back + daysInMonth y m), succDate]
          rw [if_neg (by (try simp only [year_mk, month_mk, day_mk]); omega)]
          try simp only [year_mk, month_mk, day_mk]
          by_cases hm' : m < 12
          · rw [if_pos (by (try simp only [month_mk]); omega)]
            have h1 : nextY y m = y := by simp [nextY, hm']
            have h2 : nextM m = m + 1 := by simp [nextM, hm']
            rw [PyDate.mk.injEq]
            refine ⟨by omega, by omega, by omega⟩
          · rw [if_neg (by (try simp only [month_mk]); omega)]
            have h1 : nextY y m = y + 1 := by simp [nextY, hm']
            have h2 : nextM m = 1 := by simp [nextM, hm']
            rw [PyDate.mk.injEq]
            refine ⟨by omega, by omega, by omega⟩
        · -- both positions after the month
          simp only [dateAt, if_neg (by omega : ¬ i < back),
            if_neg (by omega : ¬ i + 1 < back),
            if_neg (by omega : ¬ i < back + daysInMonth y m),
            if_neg (by omega : ¬ i + 1 < back + daysInMonth y m), succDate]
          rw [if_pos (by (try simp only [year_mk, month_mk, day_mk]); omega)]
          try simp only [year_mk, month_mk, day_mk]
          rw [PyDate.mk.injEq]
          refine ⟨rfl, rfl, by omega⟩

lemma iterate_dateAt (y m : Nat) (hy1 : 1 ≤ y)
    (hm1 : 1 ≤ m) (hm2 : m ≤ 12) (back : Nat) (hback : back < 7)
    (hpy : back = 0 ∨ 1 ≤ prevY y m) (i : Nat)
    (hi : i ≤ back + daysInMonth y m + 6) :
    succDate^[i] (dateAt y m back 0) = dateAt y m back i := by
  induction i with
  | zero => rfl
  | succ k ih =>
    rw [Function.iterate_succ_apply', ih (by omega)]
    exact dateAt_succ y m hy1 hm1 hm2 back hback hpy k hi

lemma weekday_dateAt (y m : Nat) (hy1 : 1 ≤ y)
    (hm1 : 1 ≤ m) (hm2 : m ≤ 12) (back : Nat) (hback : back < 7)
    (hpy : back = 0 ∨ 1 ≤ prevY y m) (i : Nat)
    (hi : i ≤ back + daysInMonth y m + 6) :
    weekdayD (dateAt y m back i) = (weekdayD (dateAt y m back 0) + i) % 7 := by
  induction i with
  | zero =>
    have := weekdayD_lt (dateAt y m back 0)
    omega
  | succ k ih =>
    have hv := dateAt_valid y m hy1 hm1 hm2 back hback hpy k (by omega)
    have hs := dateAt_succ y m hy1 hm1 hm2 back hback hpy k hi
    have hw := weekdayD_succ (dateAt y m back k) hv.1 hv.2.1 hv.2.2.1 hv.2.2.2.2
    rw [hs] at hw
    rw [hw, ih (by omega)]
    omega

lemma dateAt_back (y m back : Nat) (hm : 1 ≤ daysInMonth y m) :
    dateAt y m back back = ⟨y, m, 1⟩ := by
  simp only [dateAt, if_neg (by omega : ¬ back < back),
    if_pos (by omega : back < back + daysInMonth y m)]
  simp

lemma predDate_dateAt (y m : Nat) (hy1 : 1 ≤ y)
    (hm1 : 1 ≤ m) (hm2 : m ≤ 12) (back : Nat) (hback : back < 7)
    (hpy : back = 0 ∨ 1 ≤ prevY y m) (j : Nat) (hj : j < back) :
    predDate (dateAt y m back (j + 1)) = dateAt y m back j := by
  have hpm := prevM_bounds m hm1 hm2
  have hdp := daysInMonth_bounds (prevY y m) (prevM m) hpm.1 hpm.2.1
  have hdm := daysInMonth_bounds y m hm1 hm2
  rcases Nat.lt_or_ge (j + 1) back with hc | hc
  · -- both positions precede the 1st
    simp only [dateAt, if_pos hc, if_pos (by omega : j < back), predDate]
    rw [if_pos (by (try simp only [day_mk]); omega)]
    rw [PyDate.mk.injEq]
    refine ⟨rfl, rfl, by omega⟩
  · -- j + 1 = back: stepping back from the 1st of the month
    have hjb : j + 1 = back := by omega
    rw [hjb, dateAt_back y m back (by omega)]
    simp only [dateAt, if_pos (by omega : j < back), predDate]
    rw [if_neg (by (try simp only [day_mk]); omega)]
    by_cases hm' : m = 1
    · have h12 : prevM m = 12 := by simp [prevM, hm']
      have hpy' : prevY y m = y - 1 := by simp [prevY, hm']
      rw [if_neg (by (try simp only [month_mk]); omega)]
      rw [PyDate.mk.injEq]
      refine ⟨by omega, by omega, ?_⟩
      rw [hpy', h12] at *
      have h31 := daysInMonth_12 (y - 1)
      omega
    · have h12 : prevM m = m - 1 := by simp [prevM, hm']
      have hpy' : prevY y m = y := by simp [prevY, hm']
      rw [if_pos (by (try simp only [month_mk]); omega)]
      rw [PyDate.mk.injEq]
      refine ⟨by omega, by omega, ?_⟩
      rw [hpy', h12]
      omega

lemma subDays_eq_dateAt (y m : Nat) (hy1 : 1 ≤ y)
    (hm1 : 1 ≤ m) (hm2 : m ≤ 12) (back : Nat) (hback : back < 7)
    (hpy : back = 0 ∨ 1 ≤ prevY y m) :
    subDays back ⟨y, m, 1⟩ = dateAt y m back 0 := by
  have hdm := daysInMonth_bounds y m hm1 hm2
  have key : ∀ k, k ≤ back → subDays k ⟨y, m, 1⟩ = dateAt y m back (back - k) := by
    intro k
    induction k with
    | zero =>
      intro _
      rw [show back - 0 = back from rfl, dateAt_back y m back (by omega)]
      rfl
    | succ n ih =>
      intro hn
      have h1 : subDays (n + 1) ⟨y, m, 1⟩ = predDate (subDays n ⟨y, m, 1⟩) :=
        Function.iterate_succ_apply' predDate n _
      rw [h1, ih (by omega)]
      have h2 : back - n = (back - (n + 1)) + 1 := by omega
      rw [h2]
      exact predDate_dateAt y m hy1 hm1 hm2 back hback hpy _ (by omega)
  have := key back (le_refl back)
  rwa [Nat.sub_self] at this

lemma iterAux_run (fw m : Nat) (cnt : Nat) : ∀ (fuel : Nat) (d : PyDate),
    1 ≤ cnt → cnt ≤ fuel →
    (∀ j, j + 1 < cnt → succDate^[j] d ≠ ⟨9999, 12, 31⟩) →
    (∀ j, 1 ≤ j → j < cnt →
      ¬((succDate^[j] d).month ≠ m ∧ weekdayD (succDate^[j] d) = fw)) →
    (succDate^[cnt - 1] d = ⟨9999, 12, 31⟩ ∨
      ((succDate^[cnt] d).month ≠ m ∧ weekdayD (succDate^[cnt] d) = fw)) →
    iterAux fw m fuel d = (List.range cnt).map (fun j => succDate^[j] d) := by
  induction cnt with
  | zero => intro fuel d h1 _ _ _ _; omega
  | succ c ih =>
    intro fuel d _ hf hmax hmid hstop
    obtain ⟨f, rfl⟩ : ∃ f, fuel = f + 1 := ⟨fuel - 1, by omega⟩
    by_cases hc0 : c = 0
    · subst hc0
      simp only [iterAux]
      rcases hstop with hmx | hcond
      · rw [if_pos (by simpa using hmx)]
        simp
      · by_cases hmx : d = ⟨9999, 12, 31⟩
        · rw [if_pos hmx]; simp
        · rw [if_neg hmx]
          have hcond' : (succDate d).month ≠ m ∧ weekdayD (succDate d) = fw := by
            simpa using hcond
          rw [if_pos hcond']
          simp
    · have hc1 : 1 ≤ c := by omega
      have hd_ne : d ≠ ⟨9999, 12, 31⟩ := by
        have := hmax 0 (by omega)
        simpa using this
      have hcond1 : ¬((succDate d).month ≠ m ∧ weekdayD (succDate d) = fw) := by
        have := hmid 1 (by omega) (by omega)
        simpa using this
      have hmax' : ∀ j, j + 1 < c → succDate^[j] (succDate d) ≠ ⟨9999, 12, 31⟩ := by
        intro j hj
        have := hmax (j + 1) (by omega)
        rwa [Function.iterate_succ_apply] at this
      have hmid' : ∀ j, 1 ≤ j → j < c →
          ¬((succDate^[j] (succDate d)).month ≠ m ∧
            weekdayD (succDate^[j] (succDate d)) = fw) := by
        intro j hj1 hj2
        have := hmid (j + 1) (by omega) (by omega)
        rwa [Function.iterate_succ_apply] at this
      have hstop' : succDate^[c - 1] (succDate d) = ⟨9999, 12, 31⟩ ∨
          ((succDate^[c] (succDate d)).month ≠ m ∧
            weekdayD (succDate^[c] (succDate d)) = fw) := by
        have e1 : succDate^[c - 1] (succDate d) = succDate^[c] d := by
          conv_rhs => rw [show c = (c - 1) + 1 from by omega]
          rw [Function.iterate_succ_apply]
        have e2 : succDate^[c] (succDate d) = succDate^[c + 1] d :=
          (Function.iterate_succ_apply succDate c d).symm
        rw [e1, e2]
        simpa using hstop
      have hcomp : (fun j => succDate^[j] d) ∘ Nat.succ
          = fun j => succDate^[j] (succDate d) := by
        funext j
        simp [Function.iterate_succ_apply]
      simp only [iterAux]
      rw [if_neg hd_ne, if_neg hcond1, ih f (succDate d) hc1 (by omega) hmax' hmid' hstop']
      rw [List.range_succ_eq_map, List.map_cons, List.map_map, hcomp]
      rfl

lemma dateAt_month (y m back i : Nat) :
    (dateAt y m back i).month =
      if i < back then prevM m
      else if i < back + daysInMonth y m then m else nextM m := by
  unfold dateAt
  split_ifs <;> rfl

lemma dateAt_ne_max (y m : Nat) (hy2 : y ≤ 9999) (hm1 : 1 ≤ m) (hm2 : m ≤ 12)
    (hnb : ¬(y = 9999 ∧ m = 12)) (back i : Nat)
    (hi : i < back + daysInMonth y m + 7) :
    dateAt y m back i ≠ ⟨9999, 12, 31⟩ := by
  intro h
  simp only [dateAt] at h
  split at h
  · rw [PyDate.mk.injEq] at h
    obtain ⟨h1, h2, -⟩ := h
    by_cases hm' : m = 1
    · rw [show prevY y m = y - 1 from by simp [prevY, hm']] at h1
      omega
    · rw [show prevM m = m - 1 from by simp [prevM, hm']] at h2
      omega
  · split at h
    · rw [PyDate.mk.injEq] at h
      omega
    · rw [PyDate.mk.injEq] at h
      omega

lemma weekday_dateAt_zero (fw y m : Nat) (hfw : fw < 7) (hy1 : 1 ≤ y)
    (hm1 : 1 ≤ m) (hm2 : m ≤ 12)
    (hpy : backOf fw y m = 0 ∨ 1 ≤ prevY y m) :
    weekdayD (dateAt y m (backOf fw y m) 0) = fw := by
  have hback := backOf_lt fw y m hfw
  have hdm := daysInMonth_bounds y m hm1 hm2
  have hw := weekday_dateAt y m hy1 hm1 hm2 (backOf fw y m) hback hpy
    (backOf fw y m) (by omega)
  rw [dateAt_back y m (backOf fw y m) (by omega)] at hw
  have h0 := weekdayD_lt (dateAt y m (backOf fw y m) 0)
  have h1 := weekdayD_lt ⟨y, m, 1⟩
  have hb : backOf fw y m =
      (((weekdayD ⟨y, m, 1⟩ : Int) - (fw : Int)) % 7).toNat := rfl
  omega

lemma totalOf_mod7 (fw y m : Nat) (hfw : fw < 7) (hm1 : 1 ≤ m) (hm2 : m ≤ 12) :
    totalOf fw y m % 7 = 0 := by
  have h1 := weekdayD_lt ⟨y, m, 1⟩
  have hdm := daysInMonth_bounds y m hm1 hm2
  simp only [totalOf, backOf, afterOf]
  omega

lemma itermonthdatesCore_eq (fw y m : Nat) (hfw : fw < 7) (hy1 : 1 ≤ y)
    (hy2 : y ≤ 9999) (hm1 : 1 ≤ m) (hm2 : m ≤ 12)
    (hnb : ¬(y = 9999 ∧ m = 12))
    (hnu : backOf fw y m < toOrd ⟨y, m, 1⟩) :
    itermonthdatesCore fw y m =
      Except.ok ((List.range (totalOf fw y m)).map (dateAt y m (backOf fw y m))) := by
  have hback := backOf_lt fw y m hfw
  have hdm := daysInMonth_bounds y m hm1 hm2
  have hafter := afterOf_lt fw y m
  have htotdef : totalOf fw y m = backOf fw y m + daysInMonth y m + afterOf fw y m := rfl
  have hpy : backOf fw y m = 0 ∨ 1 ≤ prevY y m := by
    rcases Nat.eq_zero_or_pos (backOf fw y m) with h | h
    · exact Or.inl h
    · right
      by_cases hm' : m = 1
      · rw [show prevY y m = y - 1 from by simp [prevY, hm']]
        rcases Nat.lt_or_ge 1 y with hy | hy
        · omega
        · exfalso
          have hyeq : y = 1 := by omega
          subst hyeq
          subst hm'
          have hord : toOrd ⟨1, 1, 1⟩ = 1 := rfl
          omega
      · rw [show prevY y m = y from by simp [prevY, hm']]
        omega
  have hwd0 := weekday_dateAt_zero fw y m hfw hy1 hm1 hm2 hpy
  have htot := totalOf_mod7 fw y m hfw hm1 hm2
  have htot_le : totalOf fw y m ≤ backOf fw y m + daysInMonth y m + 6 := by omega
  have hiter : ∀ j, j ≤ backOf fw y m + daysInMonth y m + 6 →
      succDate^[j] (dateAt y m (backOf fw y m) 0) = dateAt y m (backOf fw y m) j :=
    fun j hj => iterate_dateAt y m hy1 hm1 hm2 _ hback hpy j hj
  have hwd : ∀ j, j ≤ backOf fw y m + daysInMonth y m + 6 →
      weekdayD (dateAt y m (backOf fw y m) j) = (fw + j) % 7 := by
    intro j hj
    rw [weekday_dateAt y m hy1 hm1 hm2 _ hback hpy j hj, hwd0]
  have hone : 1 ≤ totalOf fw y m := by omega
  have h50 : totalOf fw y m ≤ 50 := by omega
  have hmax : ∀ j, j + 1 < totalOf fw y m →
      succDate^[j] (dateAt y m (backOf fw y m) 0) ≠ ⟨9999, 12, 31⟩ := by
    intro j hj
    rw [hiter j (by omega)]
    exact dateAt_ne_max y m hy2 hm1 hm2 hnb _ j (by omega)
  have hmid : ∀ j, 1 ≤ j → j < totalOf fw y m →
      ¬((succDate^[j] (dateAt y m (backOf fw y m) 0)).month ≠ m ∧
        weekdayD (succDate^[j] (dateAt y m (backOf fw y m) 0)) = fw) := by
    intro j hj1 hj2
    rw [hiter j (by omega)]
    rintro ⟨hmo, hwd'⟩
    rw [hwd j (by omega)] at hwd'
    have hj7 : j % 7 = 0 := by omega
    rw [dateAt_month] at hmo
    split_ifs at hmo with c1 c2
    · omega
    · exact hmo rfl
    · omega
  have hstop : succDate^[totalOf fw y m - 1] (dateAt y m (backOf fw y m) 0) =
        ⟨9999, 12, 31⟩ ∨
      ((succDate^[totalOf fw y m] (dateAt y m (backOf fw y m) 0)).month ≠ m ∧
        weekdayD (succDate^[totalOf fw y m] (dateAt y m (backOf fw y m) 0)) = fw) := by
    refine Or.inr ?_
    rw [hiter (totalOf fw y m) htot_le]
    constructor
    · rw [dateAt_month]
      split_ifs with c1 c2
      · omega
      · omega
      · exact (nextM_bounds m hm1 hm2).2.2
    · rw [hwd (totalOf fw y m) htot_le]
      omega
  have hguard : ¬ (toOrd ⟨y, m, 1⟩ ≤ backOf fw y m) := by omega
  have hunfold : itermonthdatesCore fw y m =
      if toOrd ⟨y, m, 1⟩ ≤ backOf fw y m then Except.error CalErr.overflowError
      else Except.ok (iterAux fw m 50 (subDays (backOf fw y m) ⟨y, m, 1⟩)) := rfl
  rw [hunfold, if_neg hguard, subDays_eq_dateAt y m hy1 hm1 hm2 _ hback hpy,
    iterAux_run fw m (totalOf fw y m) 50 (dateAt y m (backOf fw y m) 0)
      hone h50 hmax hmid hstop]
  congr 1
  apply List.map_congr_left
  intro j hj
  exact hiter j (by have := List.mem_range.mp hj; omega)

lemma dateAt_mid (y m back i : Nat) (h1 : back ≤ i)
    (h2 : i < back + daysInMonth y m) :
    dateAt y m back i = ⟨y, m, i - back + 1⟩ := by
  simp only [dateAt, if_neg (by omega : ¬ i < back), if_pos h2]

lemma count_dateAt (fw y m : Nat) (hfw : fw < 7) (hm1 : 1 ≤ m) (hm2 : m ≤ 12)
    (d0 : Nat) (hd1 : 1 ≤ d0) (hd2 : d0 ≤ daysInMonth y m) :
    ((List.range (totalOf fw y m)).map (dateAt y m (backOf fw y m))).count
      ⟨y, m, d0⟩ = 1 := by
  have hback := backOf_lt fw y m hfw
  have hpm := prevM_bounds m hm1 hm2
  have hnm := nextM_bounds m hm1 hm2
  have htotdef : totalOf fw y m = backOf fw y m + daysInMonth y m + afterOf fw y m := rfl
  have key : ∀ i ∈ List.range (totalOf fw y m),
      (((· == (⟨y, m, d0⟩ : PyDate)) ∘ dateAt y m (backOf fw y m)) i) ↔
        ((fun i => i == backOf fw y m + (d0 - 1)) i) := by
    intro i _
    simp only [Function.comp_apply, beq_iff_eq]
    constructor
    · intro h
      have hmo := congrArg PyDate.month h
      rw [dateAt_month] at hmo
      split_ifs at hmo with c1 c2
      · exact absurd hmo hpm.2.2
      · rw [dateAt_mid y m _ i (by omega) c2, PyDate.mk.injEq] at h
        omega
      · exact absurd hmo hnm.2.2
    · intro h
      have hi : i = backOf fw y m + (d0 - 1) := by
        simpa using h
      rw [hi, dateAt_mid y m _ _ (by omega) (by omega), PyDate.mk.injEq]
      refine ⟨rfl, rfl, by omega⟩
  rw [List.count_eq_countP, List.countP_map, List.countP_congr key,
    ← List.count_eq_countP]
  exact List.count_eq_one_of_mem (List.nodup_range _)
    (List.mem_range.mpr (by omega))

lemma filter_month_dateAt (fw y m : Nat) (hfw : fw < 7) (hm1 : 1 ≤ m)
    (hm2 : m ≤ 12) :
    ((List.range (totalOf fw y m)).map (dateAt y m (backOf fw y m))).filter
        (fun d => d.month == m) =
      (List.range (daysInMonth y m)).map (fun j => (⟨y, m, j + 1⟩ : PyDate)) := by
  have hback := backOf_lt fw y m hfw
  have hpm := prevM_bounds m hm1 hm2
  have hnm := nextM_bounds m hm1 hm2
  have htotdef : totalOf fw y m = backOf fw y m + daysInMonth y m + afterOf fw y m := rfl
  rw [htotdef, show backOf fw y m + daysInMonth y m + afterOf fw y m =
      backOf fw y m + (daysInMonth y m + afterOf fw y m) from by omega,
    List.range_add, List.range_add]
  simp only [List.map_append, List.filter_append, List.map_map]
  have hpre : ((List.range (backOf fw y m)).map
      (dateAt y m (backOf fw y m))).filter (fun d => d.month == m) = [] := by
    rw [List.filter_eq_nil]
    intro a ha
    obtain ⟨i, hi, rfl⟩ := List.mem_map.mp ha
    have hi' := List.mem_range.mp hi
    rw [dateAt_month]
    simp only [if_pos hi', beq_iff_eq]
    exact hpm.2.2
  have hmid : ((List.range (daysInMonth y m)).map
        (dateAt y m (backOf fw y m) ∘ (backOf fw y m + ·))).filter
        (fun d => d.month == m) =
      (List.range (daysInMonth y m)).map (fun j => (⟨y, m, j + 1⟩ : PyDate)) := by
    have hmap : (List.range (daysInMonth y m)).map
        (dateAt y m (backOf fw y m) ∘ (backOf fw y m + ·)) =
        (List.range (daysInMonth y m)).map (fun j => (⟨y, m, j + 1⟩ : PyDate)) := by
      apply List.map_congr_left
      intro j hj
      have hj' := List.mem_range.mp hj
      simp only [Function.comp_apply]
      rw [dateAt_mid y m _ _ (by omega) (by omega), PyDate.mk.injEq]
      refine ⟨rfl, rfl, by omega⟩
    rw [hmap, List.filter_eq_self]
    intro a ha
    obtain ⟨j, hj, rfl⟩ := List.mem_map.mp ha
    simp
  have hpost : ((List.range (afterOf fw y m)).map
        (dateAt y m (backOf fw y m) ∘ ((backOf fw y m + ·) ∘
          (daysInMonth y m + ·)))).filter (fun d => d.month == m) = [] := by
    rw [List.filter_eq_nil]
    intro a ha
    obtain ⟨i, hi, rfl⟩ := List.mem_map.mp ha
    simp only [Function.comp_apply]
    rw [dateAt_month]
    rw [if_neg (by omega), if_neg (by omega)]
    simpa using hnm.2.2
  rw [hpre, hpost, List.nil_append, List.append_nil]
  exact hmid

deriving instance DecidableEq for Except

lemma itermonthdatesE_ok_eq (fw y m : Int) (L : List PyDate)
    (hnb : ¬(y = 9999 ∧ m = 12))
    (hok : itermonthdatesE fw y m = Except.ok L) :
    (1 ≤ y ∧ y ≤ 9999 ∧ 1 ≤ m ∧ m ≤ 12) ∧
      L = (List.range (totalOf (fw % 7).toNat y.toNat m.toNat)).map
        (dateAt y.toNat m.toNat (backOf (fw % 7).toNat y.toNat m.toNat)) := by
  unfold itermonthdatesE at hok
  split at hok
  case isTrue hv =>
    obtain ⟨hy1, hy2, hm1, hm2⟩ := hv
    have hfw : (fw % 7).toNat < 7 := by omega
    have hy1' : 1 ≤ y.toNat := by omega
    have hy2' : y.toNat ≤ 9999 := by omega
    have hm1' : 1 ≤ m.toNat := by omega
    have hm2' : m.toNat ≤ 12 := by omega
    have hnb' : ¬(y.toNat = 9999 ∧ m.toNat = 12) := by omega
    have hunfold : itermonthdatesCore (fw % 7).toNat y.toNat m.toNat =
        if toOrd ⟨y.toNat, m.toNat, 1⟩ ≤ backOf (fw % 7).toNat y.toNat m.toNat
        then Except.error CalErr.overflowError
        else Except.ok (iterAux (fw % 7).toNat m.toNat 50
          (subDays (backOf (fw % 7).toNat y.toNat m.toNat)
            ⟨y.toNat, m.toNat, 1⟩)) := rfl
    have hnu : backOf (fw % 7).toNat y.toNat m.toNat <
        toOrd ⟨y.toNat, m.toNat, 1⟩ := by
      by_contra hle
      rw [hunfold, if_pos (by omega)] at hok
      exact absurd hok (by simp)
    rw [itermonthdatesCore_eq _ _ _ hfw hy1' hy2' hm1' hm2' hnb' hnu] at hok
    refine ⟨⟨hy1, hy2, hm1, hm2⟩, ?_⟩
    injection hok with h
    exact h.symm
  case isFalse hv => exact absurd hok (by simp)

/-- Claim C1 (amended): whenever `Calendar.itermonthdates(year, month)`
returns normally (it raises `OverflowError` when the initial back-step
would cross before 0001-01-01) and `(year, month)` is not December 9999
(where the trailing week is truncated at 9999-12-31), the yielded
sequence has length divisible by 7 and contains every date of the
requested month exactly once. -/
theorem itermonthdates_whole_weeks (fw y m : Int) (L : List PyDate)
    (hnb : ¬(y = 9999 ∧ m = 12))
    (hok : itermonthdatesE fw y m = Except.ok L) :
    L.length % 7 = 0 ∧
      ∀ d0 : Nat, 1 ≤ d0 → d0 ≤ daysInMonth y.toNat m.toNat →
        L.count ⟨y.toNat, m.toNat, d0⟩ = 1 := by
  obtain ⟨⟨hy1, hy2, hm1, hm2⟩, rfl⟩ := itermonthdatesE_ok_eq fw y m L hnb hok
  have hfw : (fw % 7).toNat < 7 := by omega
  constructor
  · rw [List.length_map, List.length_range]
    exact totalOf_mod7 _ _ _ hfw (by omega) (by omega)
  · intro d0 h1 h2
    exact count_dateAt _ _ _ hfw (by omega) (by omega) d0 h1 h2

/-- Claim C1 witness: February 2024 under the Monday-first default. -/
theorem itermonthdates_whole_weeks_witness :
    itermonthdatesE 0 2024 2 =
      Except.ok ((itermonthdatesE 0 2024 2).toOption.getD []) ∧
    ((itermonthdatesE 0 2024 2).toOption.getD []).length % 7 = 0 ∧
    ((itermonthdatesE 0 2024 2).toOption.getD []).count ⟨2024, 2, 29⟩ = 1 := by
  have hok : itermonthdatesE 0 2024 2 =
      Except.ok ((itermonthdatesE 0 2024 2).toOption.getD []) := by decide
  have h := itermonthdates_whole_weeks 0 2024 2 _ (by decide) hok
  refine ⟨hok, h.1, ?_⟩
  have h29 := h.2 29 (by decide) (by decide)
  exact h29

/-- Claim C1 counterexample: for December 9999 (a year inside the
representable range) with the default firstweekday 0, the sequence is
produced but is cut off at 9999-12-31; its length is 33, which is not
divisible by 7. -/
theorem itermonthdates_truncation_cex :
    ((itermonthdatesE 0 9999 12).toOption.getD []).length % 7 ≠ 0 ∧
      (itermonthdatesE 0 9999 12).toOption ≠ none := by decide

/-- Claim C2 (amended): changing the first weekday from 0 to 6 rotates
the output of `iterweekdays` by one position, and for a fixed
(year, month) the dates of the requested month yielded by
`itermonthdates` coincide under both settings; the full sequences
however differ in their out-of-month padding dates, so only the
requested-month portion (and its grouping into weeks) is preserved. -/
theorem firstweekday_rotation_month_agree :
    (iterweekdays 6 = (iterweekdays 0).rotate 6 ∧
      iterweekdays 6 = 6 :: (iterweekdays 0).take 6) ∧
    ∀ y m : Int, ¬(y = 9999 ∧ m = 12) → ∀ L0 L6 : List PyDate,
      itermonthdatesE 0 y m = Except.ok L0 →
      itermonthdatesE 6 y m = Except.ok L6 →
      L0.filter (fun d => d.month == m.toNat) =
        L6.filter (fun d => d.month == m.toNat) := by
  refine ⟨by decide, ?_⟩
  intro y m hnb L0 L6 h0 h6
  obtain ⟨⟨hy1, hy2, hm1, hm2⟩, rfl⟩ := itermonthdatesE_ok_eq 0 y m L0 hnb h0
  obtain ⟨-, rfl⟩ := itermonthdatesE_ok_eq 6 y m L6 hnb h6
  rw [filter_month_dateAt (((0 : Int) % 7).toNat) y.toNat m.toNat (by decide)
      (by omega) (by omega),
    filter_month_dateAt (((6 : Int) % 7).toNat) y.toNat m.toNat (by decide)
      (by omega) (by omega)]

/-- Claim C2 witness: the February dates of (2024, 2) agree under
firstweekday 0 and firstweekday 6. -/
theorem firstweekday_rotation_month_agree_witness :
    ((itermonthdatesE 0 2024 2).toOption.getD []).filter
        (fun d => d.month == (2 : Int).toNat) =
      ((itermonthdatesE 6 2024 2).toOption.getD []).filter
        (fun d => d.month == (2 : Int).toNat) := by
  have h0 : itermonthdatesE 0 2024 2 =
      Except.ok ((itermonthdatesE 0 2024 2).toOption.getD []) := by decide
  have h6 : itermonthdatesE 6 2024 2 =
      Except.ok ((itermonthdatesE 6 2024 2).toOption.getD []) := by decide
  exact firstweekday_rotation_month_agree.2 2024 2 (by decide) _ _ h0 h6

/-- Claim C2 counterexample: the *sets* of dates yielded by
`itermonthdates(2024, 2)` differ between firstweekday 0 and 6:
2024-01-28 is yielded under firstweekday 6 but not under 0. -/
theorem itermonthdates_padding_differs_cex :
    (⟨2024, 1, 28⟩ : PyDate) ∈ (itermonthdatesE 6 2024 2).toOption.getD [] ∧
      (⟨2024, 1, 28⟩ : PyDate) ∉ (itermonthdatesE 0 2024 2).toOption.getD [] := by
  decide

/-- Claim C3 (amended): the weekday component of the `i`-th pair yielded
by `Calendar.itermonthdays2` is `(firstweekday + i) % 7` — the true
Monday-0-based weekday number of that grid column.  It equals the
column-position index only when the configured firstweekday is ≡ 0
(mod 7); in general the first column carries the index `firstweekday`
itself, not 0. -/
theorem itermonthdays2_weekday_index (fw y m : Int) (l : List (Nat × Nat))
    (hok : itermonthdays2E fw y m = Except.ok l) (i : Nat) (hi : i < l.length) :
    (l.get ⟨i, hi⟩).2 = ((fw % 7).toNat + i) % 7 := by
  unfold itermonthdays2E at hok
  cases hE : itermonthdaysE fw y m with
  | error e => rw [hE] at hok; exact absurd hok (by simp [Except.map])
  | ok l0 =>
    rw [hE] at hok
    simp only [Except.map] at hok
    injection hok with hok
    subst hok
    rw [List.get_eq_getElem, List.getElem_map, List.getElem_enumFrom]

/-- Claim C3 witness: the first cell of `itermonthdays2(2024, 2)` under
firstweekday 6. -/
theorem itermonthdays2_weekday_index_witness :
    (((itermonthdays2E 6 2024 2).toOption.getD []).get ⟨0, by decide⟩).2 =
      (((6 : Int) % 7).toNat + 0) % 7 := by
  have hok : itermonthdays2E 6 2024 2 =
      Except.ok ((itermonthdays2E 6 2024 2).toOption.getD []) := by decide
  exact itermonthdays2_weekday_index 6 2024 2 _ hok 0 (by decide)

/-- Claim C3 counterexample: under firstweekday 6 the first column of
`itermonthdays2(2024, 2)` carries weekday index 6, not the position
index 0 the claim asserts. -/
theorem itermonthdays2_first_column_cex :
    (((itermonthdays2E 6 2024 2).toOption.getD []).getD 0 (99, 99)).2 = 6 ∧
      (itermonthdays2E 6 2024 2).toOption.getD [] ≠ [] := by decide

/-- Claim C7: `Calendar.itermonthdays` yields exactly
`(monthFirstWeekday - firstWeekday) mod 7` leading zeros, then the day
numbers 1..dayCount in order, then
`(firstWeekday - monthFirstWeekday - dayCount) mod 7` trailing zeros;
and `monthdays2calendar(2024, 2)` under the Monday-first default has
exactly 5 week rows of 7 cells each. -/
theorem itermonthdays_padding (fw y m : Int) (h1 : 1 ≤ y) (h2 : y ≤ 9999)
    (h3 : 1 ≤ m) (h4 : m ≤ 12) :
    (itermonthdaysE fw y m = Except.ok
      (List.replicate (((weekday y.toNat m.toNat 1 : Int) - fw) % 7).toNat 0 ++
        (List.range (daysInMonth y.toNat m.toNat)).map (· + 1) ++
        List.replicate ((fw - (weekday y.toNat m.toNat 1 : Int) -
          (daysInMonth y.toNat m.toNat : Int)) % 7).toNat 0)) ∧
    ((monthdays2calendarE 0 2024 2).toOption.getD []).length = 5 ∧
    ∀ w ∈ (monthdays2calendarE 0 2024 2).toOption.getD [], w.length = 7 := by
  refine ⟨?_, by decide, by decide⟩
  unfold itermonthdaysE monthrangeE
  rw [if_pos ⟨h3, h4⟩, if_pos ⟨h1, h2⟩]
  simp only [Except.map]
  have e1 : (((weekday y.toNat m.toNat 1 : Int) - fw % 7) % 7).toNat =
      (((weekday y.toNat m.toNat 1 : Int) - fw) % 7).toNat := by omega
  have e2 : ((fw % 7 - (weekday y.toNat m.toNat 1 : Int) -
        (daysInMonth y.toNat m.toNat : Int)) % 7).toNat =
      ((fw - (weekday y.toNat m.toNat 1 : Int) -
        (daysInMonth y.toNat m.toNat : Int)) % 7).toNat := by omega
  rw [e1, e2]

/-- Claim C7 witness: February 2024 under the Monday-first default. -/
theorem itermonthdays_padding_witness :
    itermonthdaysE 0 2024 2 = Except.ok
      (List.replicate (((weekday (2024 : Int).toNat (2 : Int).toNat 1 : Int)
          - 0) % 7).toNat 0 ++
        (List.range (daysInMonth (2024 : Int).toNat (2 : Int).toNat)).map (· + 1) ++
        List.replicate ((0 - (weekday (2024 : Int).toNat (2 : Int).toNat 1 : Int) -
          (daysInMonth (2024 : Int).toNat (2 : Int).toNat : Int)) % 7).toNat 0) :=
  (itermonthdays_padding 0 2024 2 (by decide) (by decide) (by decide)
    (by decide)).1

lemma monthrangeE_cases (y m : Int) (hm1 : 1 ≤ m) (hm2 : m ≤ 12) :
    (∃ p, monthrangeE y m = Except.ok p) ∨
      monthrangeE y m = Except.error CalErr.dateValueError := by
  unfold monthrangeE
  rw [if_pos ⟨hm1, hm2⟩]
  split
  · exact Or.inl ⟨_, rfl⟩
  · exact Or.inr rfl

lemma itermonthdatesE_cases (fw y m : Int) :
    (∃ L, itermonthdatesE fw y m = Except.ok L) ∨
      itermonthdatesE fw y m = Except.error CalErr.dateValueError ∨
      itermonthdatesE fw y m = Except.error CalErr.overflowError := by
  unfold itermonthdatesE
  split
  · have hunfold : itermonthdatesCore (fw % 7).toNat y.toNat m.toNat =
        if toOrd ⟨y.toNat, m.toNat, 1⟩ ≤ backOf (fw % 7).toNat y.toNat m.toNat
        then Except.error CalErr.overflowError
        else Except.ok (iterAux (fw % 7).toNat m.toNat 50
          (subDays (backOf (fw % 7).toNat y.toNat m.toNat)
            ⟨y.toNat, m.toNat, 1⟩)) := rfl
    rw [hunfold]
    split
    · exact Or.inr (Or.inr rfl)
    · exact Or.inl ⟨_, rfl⟩
  · exact Or.inr (Or.inl rfl)

lemma map_ne_illegal {α β : Type} (x : Except CalErr α) (f : α → β)
    (hx : ∀ k, x ≠ Except.error (CalErr.illegalMonth k)) (k : Int) :
    x.map f ≠ Except.error (CalErr.illegalMonth k) := by
  intro h
  cases x with
  | ok a => simp [Except.map] at h
  | error e =>
    simp only [Except.map] at h
    injection h with he
    exact hx k (by rw [he])

/-- Claim C8 (amended): for a month outside [1, 12] the five
`monthrange`-based entry points raise `IllegalMonthError`, but
`itermonthdates` and `monthdatescalendar` raise `datetime`'s plain
`ValueError` instead (the month is validated by `datetime.date`, not by
`monthrange`); for a month inside [1, 12] no entry point ever raises
`IllegalMonthError`. -/
theorem month_validation_errors (fw y m : Int) :
    (¬(1 ≤ m ∧ m ≤ 12) →
      monthrangeE y m = Except.error (CalErr.illegalMonth m) ∧
      itermonthdaysE fw y m = Except.error (CalErr.illegalMonth m) ∧
      itermonthdays2E fw y m = Except.error (CalErr.illegalMonth m) ∧
      monthdayscalendarE fw y m = Except.error (CalErr.illegalMonth m) ∧
      monthdays2calendarE fw y m = Except.error (CalErr.illegalMonth m) ∧
      itermonthdatesE fw y m = Except.error CalErr.dateValueError ∧
      monthdatescalendarE fw y m = Except.error CalErr.dateValueError) ∧
    (1 ≤ m → m ≤ 12 →
      (∀ k, monthrangeE y m ≠ Except.error (CalErr.illegalMonth k)) ∧
      (∀ k, itermonthdaysE fw y m ≠ Except.error (CalErr.illegalMonth k)) ∧
      (∀ k, itermonthdays2E fw y m ≠ Except.error (CalErr.illegalMonth k)) ∧
      (∀ k, monthdayscalendarE fw y m ≠ Except.error (CalErr.illegalMonth k)) ∧
      (∀ k, monthdays2calendarE fw y m ≠ Except.error (CalErr.illegalMonth k)) ∧
      (∀ k, itermonthdatesE fw y m ≠ Except.error (CalErr.illegalMonth k)) ∧
      (∀ k, monthdatescalendarE fw y m ≠ Except.error (CalErr.illegalMonth k))) := by
  constructor
  · intro hbad
    have hmr : monthrangeE y m = Except.error (CalErr.illegalMonth m) := by
      unfold monthrangeE
      rw [if_neg hbad]
    have hdays : itermonthdaysE fw y m = Except.error (CalErr.illegalMonth m) := by
      unfold itermonthdaysE
      rw [hmr]
      rfl
    have hdays2 : itermonthdays2E fw y m = Except.error (CalErr.illegalMonth m) := by
      unfold itermonthdays2E
      rw [hdays]
      rfl
    have hdates : itermonthdatesE fw y m = Except.error CalErr.dateValueError := by
      unfold itermonthdatesE
      rw [if_neg (by tauto)]
    refine ⟨hmr, hdays, hdays2, ?_, ?_, hdates, ?_⟩
    · unfold monthdayscalendarE
      rw [hdays]
      rfl
    · unfold monthdays2calendarE
      rw [hdays2]
      rfl
    · unfold monthdatescalendarE
      rw [hdates]
      rfl
  · intro hm1 hm2
    have hmr : ∀ k, monthrangeE y m ≠ Except.error (CalErr.illegalMonth k) := by
      intro k h
      rcases monthrangeE_cases y m hm1 hm2 with ⟨p, hp⟩ | hp <;> rw [hp] at h <;>
        simp at h
    have hdays : ∀ k, itermonthdaysE fw y m ≠
        Except.error (CalErr.illegalMonth k) := by
      unfold itermonthdaysE
      exact map_ne_illegal _ _ hmr
    have hdays2 : ∀ k, itermonthdays2E fw y m ≠
        Except.error (CalErr.illegalMonth k) := by
      unfold itermonthdays2E
      exact map_ne_illegal _ _ hdays
    have hdates : ∀ k, itermonthdatesE fw y m ≠
        Except.error (CalErr.illegalMonth k) := by
      intro k h
      rcases itermonthdatesE_cases fw y m with ⟨L, hL⟩ | hL | hL <;>
        rw [hL] at h <;> simp at h
    refine ⟨hmr, hdays, hdays2, ?_, ?_, hdates, ?_⟩
    · unfold monthdayscalendarE
      exact map_ne_illegal _ _ hdays
    · unfold monthdays2calendarE
      exact map_ne_illegal _ _ hdays2
    · unfold monthdatescalendarE
      exact map_ne_illegal _ _ hdates

/-- Claim C8 witness: month 13 raises `IllegalMonthError` from
`monthrange`; month 5 never does. -/
theorem month_validation_errors_witness :
    monthrangeE 2024 13 = Except.error (CalErr.illegalMonth 13) ∧
      monthrangeE 2024 5 ≠ Except.error (CalErr.illegalMonth 5) :=
  ⟨((month_validation_errors 0 2024 13).1 (by decide)).1,
    ((month_validation_errors 0 2024 5).2 (by decide) (by decide)).1 5⟩

/-- Claim C8 counterexample: for month 13, `itermonthdates` raises the
generic `datetime` `ValueError`, not `IllegalMonthError` as the claim
asserts. -/
theorem itermonthdates_error_kind_cex :
    itermonthdatesE 0 2024 13 = Except.error CalErr.dateValueError ∧
      itermonthdatesE 0 2024 13 ≠ Except.error (CalErr.illegalMonth 13) := by
  decide

lemma except_bind_ok {α β : Type} (a : α) (f : α → Except CalErr β) :
    (Except.ok a >>= f) = f a := rfl

lemma except_bind_error {α β : Type} (e : CalErr) (f : α → Except CalErr β) :
    ((Except.error e : Except CalErr α) >>= f) = Except.error e := rfl

lemma mapM_ok_of_forall {α β : Type} (l : List α) (f : α → Except CalErr β)
    (h : ∀ a ∈ l, ∃ b, f a = Except.ok b) :
    ∃ bs, l.mapM f = Except.ok bs := by
  induction l with
  | nil => exact ⟨[], rfl⟩
  | cons a t ih =>
    obtain ⟨b, hb⟩ := h a (by simp)
    obtain ⟨bs, hbs⟩ := ih fun x hx => h x (by simp [hx])
    refine ⟨b :: bs, ?_⟩
    rw [List.mapM_cons, hb]
    show Except.ok b >>= _ = _
    rw [except_bind_ok, hbs]
    rfl

lemma pyRangeStep_neg (start stop step : Int) (h : step < 0)
    (hss : start ≤ stop) : pyRangeStep start stop step = Except.ok [] := by
  unfold pyRangeStep
  rw [if_neg (by omega), if_neg (by omega)]
  have hz : ((start - stop - step - 1) / (-step)).toNat = 0 := by
    rcases Int.lt_or_le (start - stop - step - 1) 0 with hneg | hpos
    · have := Int.ediv_neg' hneg (by omega : (0 : Int) < -step)
      omega
    · rw [Int.ediv_eq_zero_of_lt hpos (by omega)]
      rfl
  rw [hz]
  rfl

lemma monthrangeE_ok (y m : Int) (h1 : 1 ≤ y) (h2 : y ≤ 9999)
    (h3 : 1 ≤ m) (h4 : m ≤ 12) : ∃ p, monthrangeE y m = Except.ok p := by
  unfold monthrangeE
  rw [if_pos ⟨h3, h4⟩, if_pos ⟨h1, h2⟩]
  exact ⟨_, rfl⟩

lemma itermonthdatesE_ok_of (fw y m : Int) (h1 : 2 ≤ y) (h2 : y ≤ 9999)
    (h3 : 1 ≤ m) (h4 : m ≤ 12) :
    ∃ L, itermonthdatesE fw y m = Except.ok L := by
  unfold itermonthdatesE
  rw [if_pos ⟨by omega, h2, h3, h4⟩]
  have hb := backOf_lt (fw % 7).toNat y.toNat m.toNat (by omega)
  have hord : 365 ≤ daysBeforeYear y.toNat := by
    simp only [daysBeforeYear]
    omega
  have hunfold : itermonthdatesCore (fw % 7).toNat y.toNat m.toNat =
      if toOrd ⟨y.toNat, m.toNat, 1⟩ ≤ backOf (fw % 7).toNat y.toNat m.toNat
      then Except.error CalErr.overflowError
      else Except.ok (iterAux (fw % 7).toNat m.toNat 50
        (subDays (backOf (fw % 7).toNat y.toNat m.toNat)
          ⟨y.toNat, m.toNat, 1⟩)) := rfl
  rw [hunfold, if_neg (by simp only [toOrd, year_mk, month_mk, day_mk]; omega)]
  exact ⟨_, rfl⟩

lemma monthdayscalendarE_ok (fw y m : Int) (h1 : 1 ≤ y) (h2 : y ≤ 9999)
    (h3 : 1 ≤ m) (h4 : m ≤ 12) :
    ∃ g, monthdayscalendarE fw y m = Except.ok g := by
  obtain ⟨p, hp⟩ := monthrangeE_ok y m h1 h2 h3 h4
  unfold monthdayscalendarE itermonthdaysE
  rw [hp]
  exact ⟨_, rfl⟩

lemma monthdays2calendarE_ok (fw y m : Int) (h1 : 1 ≤ y) (h2 : y ≤ 9999)
    (h3 : 1 ≤ m) (h4 : m ≤ 12) :
    ∃ g, monthdays2calendarE fw y m = Except.ok g := by
  obtain ⟨p, hp⟩ := monthrangeE_ok y m h1 h2 h3 h4
  unfold monthdays2calendarE itermonthdays2E itermonthdaysE
  rw [hp]
  exact ⟨_, rfl⟩

lemma monthdatescalendarE_ok (fw y m : Int) (h1 : 2 ≤ y) (h2 : y ≤ 9999)
    (h3 : 1 ≤ m) (h4 : m ≤ 12) :
    ∃ g, monthdatescalendarE fw y m = Except.ok g := by
  obtain ⟨L, hL⟩ := itermonthdatesE_ok_of fw y m h1 h2 h3 h4
  unfold monthdatescalendarE
  rw [hL]
  exact ⟨_, rfl⟩

/-- Claim C9 (amended): only `HTMLCalendar.formatyear` clamps its width
argument (via `max(width, 1)`); the `Calendar` year-grid methods do not:
for `width = 0` the chunking `range(0, 12, 0)` raises `ValueError`, and
for negative `width` the chunking range is empty, so they return an
empty grid rather than behaving as if the width were 1. -/
theorem year_width_clamp (fw y w : Int) :
    (formatyearE fw y w = formatyearE fw y (max w 1)) ∧
    (2 ≤ y → y ≤ 9999 →
      (w < 0 →
        yeardatescalendarE fw y w = Except.ok [] ∧
        yeardays2calendarE fw y w = Except.ok [] ∧
        yeardayscalendarE fw y w = Except.ok []) ∧
      (w = 0 →
        yeardatescalendarE fw y w = Except.error CalErr.zeroStepError ∧
        yeardays2calendarE fw y w = Except.error CalErr.zeroStepError ∧
        yeardayscalendarE fw y w = Except.error CalErr.zeroStepError)) := by
  constructor
  · unfold formatyearE
    rw [max_assoc, max_self]
  · intro hy1 hy2
    obtain ⟨ms1, hms1⟩ := mapM_ok_of_forall (List.range 12)
        (fun i => monthdatescalendarE fw y (1 + (i : Int))) (by
      intro a ha
      have ha' := List.mem_range.mp ha
      exact monthdatescalendarE_ok fw y (1 + (a : Int)) hy1 hy2 (by omega)
        (by omega))
    obtain ⟨ms2, hms2⟩ := mapM_ok_of_forall (List.range 12)
        (fun i => monthdays2calendarE fw y (1 + (i : Int))) (by
      intro a ha
      have ha' := List.mem_range.mp ha
      exact monthdays2calendarE_ok fw y (1 + (a : Int)) (by omega) hy2 (by omega)
        (by omega))
    obtain ⟨ms3, hms3⟩ := mapM_ok_of_forall (List.range 12)
        (fun i => monthdayscalendarE fw y (1 + (i : Int))) (by
      intro a ha
      have ha' := List.mem_range.mp ha
      exact monthdayscalendarE_ok fw y (1 + (a : Int)) (by omega) hy2 (by omega)
        (by omega))
    constructor
    · intro hw
      have hr := pyRangeStep_neg 0 12 w hw (by omega)
      refine ⟨?_, ?_, ?_⟩
      · show ((List.range 12).mapM fun (i : Nat) => monthdatescalendarE fw y (1 + (i : Int)))
          >>= _ = _
        rw [hms1, except_bind_ok, hr, except_bind_ok]
        rfl
      · show ((List.range 12).mapM fun (i : Nat) => monthdays2calendarE fw y (1 + (i : Int)))
          >>= _ = _
        rw [hms2, except_bind_ok, hr, except_bind_ok]
        rfl
      · show ((List.range 12).mapM fun (i : Nat) => monthdayscalendarE fw y (1 + (i : Int)))
          >>= _ = _
        rw [hms3, except_bind_ok, hr, except_bind_ok]
        rfl
    · intro hw
      subst hw
      have hr : pyRangeStep 0 12 0 = Except.error CalErr.zeroStepError := rfl
      refine ⟨?_, ?_, ?_⟩
      · show ((List.range 12).mapM fun (i : Nat) => monthdatescalendarE fw y (1 + (i : Int)))
          >>= _ = _
        rw [hms1, except_bind_ok, hr, except_bind_error]
      · show ((List.range 12).mapM fun (i : Nat) => monthdays2calendarE fw y (1 + (i : Int)))
          >>= _ = _
        rw [hms2, except_bind_ok, hr, except_bind_error]
      · show ((List.range 12).mapM fun (i : Nat) => monthdayscalendarE fw y (1 + (i : Int)))
          >>= _ = _
        rw [hms3, except_bind_ok, hr, except_bind_error]

/-- Claim C9 witness: at year 2024 with width -5, `formatyear` behaves
as clamped while `yeardayscalendar` returns the empty grid. -/
theorem year_width_clamp_witness :
    formatyearE 0 2024 (-5) = formatyearE 0 2024 (max (-5) 1) ∧
      yeardayscalendarE 0 2024 (-5) = Except.ok [] :=
  ⟨(year_width_clamp 0 2024 (-5)).1,
    (((year_width_clamp 0 2024 (-5)).2 (by decide) (by decide)).1
      (by decide)).2.2⟩

/-- Claim C9 counterexample: `yeardayscalendar` does not treat width
values below 1 as 1 — width 0 raises and width -1 yields an empty list,
both different from the width-1 result. -/
theorem yeardayscalendar_no_clamp_cex :
    yeardayscalendarE 0 2024 0 ≠ yeardayscalendarE 0 2024 1 ∧
      yeardayscalendarE 0 2024 (-1) ≠ yeardayscalendarE 0 2024 1 := by
  decide

lemma le_foldl_max (l : List Nat) (a : Nat) : a ≤ l.foldl max a := by
  induction l generalizing a with
  | nil => exact le_refl a
  | cons x t ih => exact le_trans (le_max_left a x) (ih (max a x))

lemma mem_le_foldl_max (l : List Nat) (a : Nat) : ∀ x ∈ l, x ≤ l.foldl max a := by
  induction l generalizing a with
  | nil => intro x hx; simp at hx
  | cons b t ih =>
    intro x hx
    rcases List.mem_cons.mp hx with rfl | hx'
    · exact le_trans (le_max_right a x) (le_foldl_max t (max a x))
    · exact ih (max a b) x hx'

lemma pyMax_ge (l : List Nat) (x : Nat) (hx : x ∈ l) : x ≤ pyMax l :=
  mem_le_foldl_max l 0 x hx

lemma pyMax_pos (l : List Nat) (hne : l ≠ []) (h : ∀ x ∈ l, 1 ≤ x) :
    1 ≤ pyMax l := by
  match l, hne with
  | x :: t, _ => exact le_trans (h x (by simp)) (pyMax_ge _ x (by simp))

lemma toDigits_len2 : ∀ n : Nat, n < 256 → 16 ≤ n →
    (Nat.toDigits 16 n).length = 2 := by decide

lemma hexSlice2_len2 (v : Int) (h1 : 112 ≤ v) (h2 : v ≤ 255) :
    (hexSlice2 v).length = 2 := by
  unfold hexSlice2
  rw [if_neg (by omega)]
  have hlen := toDigits_len2 v.toNat (by omega) (by omega)
  have hmk : (String.mk (Nat.toDigits 16 v.toNat)).length =
      (Nat.toDigits 16 v.toNat).length := rfl
  rw [hmk]
  exact hlen

lemma cellValue_bounds (dc : List ((Nat × Nat × Nat) × Nat)) (hne : dc ≠ [])
    (hpos : ∀ p ∈ dc, 1 ≤ p.2) (c : Nat) (hc1 : 1 ≤ c)
    (hcle : c ≤ pyMax (dc.map fun p => p.2)) :
    112 ≤ cellValue dc c ∧ cellValue dc c ≤ 255 := by
  unfold cellValue
  have hstep : (143 / pyMax (dc.map fun p => p.2)) * c ≤ 143 :=
    le_trans (Nat.mul_le_mul_left _ hcle) (Nat.div_mul_le_self 143 _)
  rw [← Nat.cast_mul]
  omega

/-- Claim C10: for a non-empty count map with all counts at least 1,
every grayscale value computed by `getcellstyles` lies in [112, 255]
without any defensive clamp (since `floor(143/max) * count ≤ 143`), so
`hex(value)[2:]` is always exactly two characters and every emitted
background color string is exactly six hexadecimal digits. -/
theorem bgcolor_in_range_six_hex (dc : List ((Nat × Nat × Nat) × Nat))
    (hne : dc ≠ []) (hpos : ∀ p ∈ dc, 1 ≤ p.2) :
    (∀ p ∈ dc, 112 ≤ cellValue dc p.2 ∧ cellValue dc p.2 ≤ 255) ∧
    ∀ s ∈ getcellstylesList dc, s.bgcolor.length = 6 := by
  have hb : ∀ p ∈ dc, 112 ≤ cellValue dc p.2 ∧ cellValue dc p.2 ≤ 255 := by
    intro p hp
    exact cellValue_bounds dc hne hpos p.2 (hpos p hp)
      (pyMax_ge _ _ (List.mem_map_of_mem _ hp))
  refine ⟨hb, ?_⟩
  intro s hs
  obtain ⟨p, hp, rfl⟩ := List.mem_map.mp hs
  show (hexSlice2 (cellValue dc p.2) ++ hexSlice2 (cellValue dc p.2) ++
    hexSlice2 (cellValue dc p.2)).length = 6
  rw [String.length_append, String.length_append]
  have h2 := hexSlice2_len2 _ (hb p hp).1 (hb p hp).2
  omega

/-- Claim C10 witness: the concrete count map with counts 1 and 3. -/
theorem bgcolor_in_range_six_hex_witness :
    (112 ≤ cellValue [((2024, 2, 5), 1), ((2024, 2, 6), 3)] 3 ∧
      cellValue [((2024, 2, 5), 1), ((2024, 2, 6), 3)] 3 ≤ 255) ∧
    (StyleData.mk "_20240206" "727272").bgcolor.length = 6 := by
  have h := bgcolor_in_range_six_hex [((2024, 2, 5), 1), ((2024, 2, 6), 3)]
    (by decide) (by decide)
  exact ⟨h.1 ((2024, 2, 6), 3) (by decide), h.2 _ (by decide)⟩

/-- Claim C5: `getcellstyles` assigns each date the grayscale value
`255 - floor(143 / maxCount) * count`; the value is monotonically
non-increasing as the count increases, the divisor `maxCount` is at
least 1 (so no division by zero, even when it equals 1), and on the
counts {d1: 1, d2: 3} the step is 47 with values 208 and 114, d2
strictly darker than d1. -/
theorem getcellstyles_density_scale :
    (∀ dc : List ((Nat × Nat × Nat) × Nat), dc ≠ [] → (∀ p ∈ dc, 1 ≤ p.2) →
      1 ≤ pyMax (dc.map fun p => p.2) ∧
      getcellstylesList dc = dc.map (fun p => ⟨styleIdOf p.1,
        hexSlice2 (cellValue dc p.2) ++ hexSlice2 (cellValue dc p.2) ++
          hexSlice2 (cellValue dc p.2)⟩) ∧
      ∀ p ∈ dc, ∀ q ∈ dc, p.2 ≤ q.2 → cellValue dc q.2 ≤ cellValue dc p.2) ∧
    (143 / pyMax ([((2024, 2, 5), 1), ((2024, 2, 6), 3)].map fun p => p.2) = 47 ∧
      cellValue [((2024, 2, 5), 1), ((2024, 2, 6), 3)] 1 = 208 ∧
      cellValue [((2024, 2, 5), 1), ((2024, 2, 6), 3)] 3 = 114 ∧
      cellValue [((2024, 2, 5), 1), ((2024, 2, 6), 3)] 3 <
        cellValue [((2024, 2, 5), 1), ((2024, 2, 6), 3)] 1) := by
  constructor
  · intro dc hne hpos
    refine ⟨pyMax_pos _ (by simpa using hne) (by
        intro x hx
        obtain ⟨p, hp, rfl⟩ := List.mem_map.mp hx
        exact hpos p hp), rfl, ?_⟩
    intro p hp q hq hle
    unfold cellValue
    have hmul : (143 / pyMax (dc.map fun r => r.2)) * p.2 ≤
        (143 / pyMax (dc.map fun r => r.2)) * q.2 :=
      Nat.mul_le_mul_left _ hle
    rw [← Nat.cast_mul, ← Nat.cast_mul]
    omega
  · exact ⟨by decide, by decide, by decide, by decide⟩

/-- Claim C5 witness: monotonicity instantiated on the counts {1, 3}. -/
theorem getcellstyles_density_scale_witness :
    cellValue [((2024, 2, 5), 1), ((2024, 2, 6), 3)] 3 ≤
      cellValue [((2024, 2, 5), 1), ((2024, 2, 6), 3)] 1 :=
  (getcellstyles_density_scale.1 [((2024, 2, 5), 1), ((2024, 2, 6), 3)]
    (by decide) (by decide)).2.2 ((2024, 2, 5), 1) (by decide)
    ((2024, 2, 6), 3) (by decide) (by decide)

/-- Claim C4 (amended): the stylesheet identifier emitted by
`getcellstyles` and the day-cell element id emitted by
`HTMLCalendar.formatday` are both an underscore followed by the
`yyyyMMdd` digits (`_20240205`, not the bare `20240205` the claim
states — a bare digit-leading id would not even be a valid CSS
selector target), and the two coincide for every date. -/
theorem cell_ids_coincide (theyear themonth day wd : Nat) (hday : day ≠ 0) :
    formatday day wd theyear themonth =
      "<td class=\"day " ++ cssclasses.getD wd "" ++ "\" id=\"" ++
        styleIdOf (theyear, themonth, day) ++ "\">" ++ toString day ++ "</td>" ∧
    styleIdOf (theyear, themonth, day) =
      "_" ++ toString theyear ++ format02 themonth ++ format02 day ∧
    ∀ dc : List ((Nat × Nat × Nat) × Nat),
      (getcellstylesList dc).map (fun s => s.id) = dc.map fun p => styleIdOf p.1 := by
  refine ⟨?_, rfl, ?_⟩
  · unfold formatday styleIdOf
    rw [if_neg hday]
    have hlit : ("\" id=\"_" : String) = "\" id=\"" ++ "_" := rfl
    rw [hlit]
    simp only [String.append_assoc]
  · intro dc
    simp only [getcellstylesList, List.map_map]
    rfl

/-- Claim C4 witness: the cell for 2024-02-05 (a Thursday). -/
theorem cell_ids_coincide_witness :
    formatday 5 3 2024 2 =
      "<td class=\"day " ++ cssclasses.getD 3 "" ++ "\" id=\"" ++
        styleIdOf (2024, 2, 5) ++ "\">" ++ toString 5 ++ "</td>" :=
  (cell_ids_coincide 2024 2 5 3 (by decide)).1

/-- Claim C4 counterexample: the identifier emitted for 2024-02-05 is
`_20240205`, not the bare zero-padded `20240205` the claim asserts. -/
theorem style_id_underscore_cex :
    (getcellstylesList [((2024, 2, 5), 1)]).map (fun s => s.id) = ["_20240205"] ∧
      ("_20240205" : String) ≠ "20240205" := by decide

/-- Number of leap years in `[y1, y2)`, counted year by year. -/
def leapCount (y1 y2 : Int) : Nat :=
  ((List.range (y2 - y1).toNat).filter fun (i : Nat) => isleap (y1 + (i : Int))).length

lemma leap_step (b : Int) :
    (b / 4 - (b - 1) / 4) - (b / 100 - (b - 1) / 100) +
      (b / 400 - (b - 1) / 400) = if isleap b then 1 else 0 := by
  have hiff := isleap_iff b
  rcases h : isleap b <;> rw [h] at hiff <;> norm_num at hiff ⊢ <;> omega

lemma leapdays_add (n : Nat) (y1 : Int) :
    leapdays y1 (y1 + n) = leapCount y1 (y1 + n) := by
  induction n with
  | zero =>
    have h0 : ((y1 + ((0 : Nat) : Int)) - y1).toNat = 0 := by omega
    unfold leapCount
    rw [h0]
    simp only [leapdays, List.range_zero, List.filter_nil, List.length_nil]
    omega
  | succ k ih =>
    have hn1 : ((y1 + (((k + 1 : Nat)) : Int)) - y1).toNat = k + 1 := by
      push_cast
      omega
    have hn0 : ((y1 + ((k : Nat) : Int)) - y1).toNat = k := by omega
    have hstep := leap_step (y1 + (k : Int))
    unfold leapCount at ih ⊢
    rw [hn0] at ih
    rw [hn1, List.range_succ, List.filter_append, List.length_append]
    simp only [leapdays] at ih ⊢
    rcases hl : isleap (y1 + (k : Int))
    · rw [hl] at hstep
      norm_num at hstep
      have hlen : (List.filter (fun (i : Nat) => isleap (y1 + (i : Int)))
          [k]).length = 0 := by
        simp [List.filter, hl]
      push_cast
      omega
    · rw [hl] at hstep
      norm_num at hstep
      have hlen : (List.filter (fun (i : Nat) => isleap (y1 + (i : Int)))
          [k]).length = 1 := by
        simp [List.filter, hl]
      push_cast
      omega

/-- Claim C6: `leapdays(y1, y2)` computed by the closed-form
integer-division expression equals the number of leap years in the
half-open range `[y1, y2)` for all integers `y1 ≤ y2`; in particular
`leapdays(y, y) = 0` and `leapdays(2000, 2024) = 6`. -/
theorem leapdays_counts_leap_years :
    (∀ y1 y2 : Int, y1 ≤ y2 → leapdays y1 y2 = leapCount y1 y2) ∧
    (∀ y : Int, leapdays y y = 0) ∧
    leapdays 2000 2024 = 6 := by
  refine ⟨?_, ?_, by decide⟩
  · intro y1 y2 hle
    have hn : y2 = y1 + (((y2 - y1).toNat : Nat) : Int) := by omega
    rw [hn]
    exact leapdays_add _ y1
  · intro y
    simp only [leapdays]
    omega

/-- Claim C6 witness: the closed form agrees with the year-by-year
count on [2000, 2024), both giving 6. -/
theorem leapdays_counts_leap_years_witness :
    leapdays 2000 2024 = leapCount 2000 2024 ∧ leapCount 2000 2024 = 6 :=
  ⟨leapdays_counts_leap_years.1 2000 2024 (by decide), by decide⟩
